import Mathlib

/-!
# OpenGl: the triangle program of `opengl project/opengl project/main.cpp`

A shallow embedding of `main`, `windowResizeCallBack`, `processInputs` and
`showFPS`.

* Calls into GLFW, GLAD, OpenGL and the C++ runtime are recorded, in program
  order, as a list of `Call` values; what the window system and the driver
  answer is an explicit input (`Driver` for the set-up part, one `FrameInput`
  per iteration of the game loop).
* The window's close flag and title, and the two function-local statics of
  `showFPS`, form the `World` that the functions pass along.
* A `double` is modelled by the rational number it stands for. The result of
  every arithmetic operation on doubles is rounded the way IEEE-754 binary64
  does (`round64`: nearest value with a 53-bit significand, ties to even,
  gradual underflow below `2^-1022`). Clock readings are taken to be binary64
  values that are not negative, so that the subtraction in `showFPS` cannot
  overflow; the division `1000.0 / fps` yields an infinity when `fps` is zero
  or when the quotient overflows (`Dbl.div`).
* The stream output of a double in fixed notation with precision 3 is the
  function `fixed3`; it depends on the value only, `readFixed3` reads such a
  text back.
* `int frameCount` is a 32-bit signed integer; `frameCount++` wraps around
  (`wrapInt32`).
-/

namespace OpenGl

/-! ## Numbers -/

/-- Value of a `double` expression: a finite number or an infinity. -/
inductive Dbl where
  | fin (q : ℚ)
  | inf
  | negInf
  deriving DecidableEq

/-- Power of two with an integer exponent. -/
def pow2 (e : Int) : ℚ :=
  if 0 ≤ e then ((1 <<< e.toNat : Nat) : ℚ) else 1 / ((1 <<< (-e).toNat : Nat) : ℚ)

/-- Search for the binade of a positive rational by halving and doubling. -/
def binadeSearch : Nat → ℚ → Int
  | 0, _ => 0
  | fuel + 1, a =>
    if 2 ≤ a then binadeSearch fuel (a / 2) + 1
    else if a < 1 then binadeSearch fuel (a * 2) - 1
    else 0

/-- Binade of a positive rational `a`: the integer `e` with
`2^e ≤ a < 2^(e+1)`. The searched value is checked; `Int.log` is the
reference. -/
def binade (a : ℚ) : Int :=
  let e := binadeSearch 2200 a
  if pow2 e ≤ a ∧ a < pow2 (e + 1) then e else Int.log 2 a

/-- Nearest natural number to a non-negative rational, ties to even. -/
def roundHalfEven (x : ℚ) : Nat :=
  let f := ⌊x⌋.toNat
  let r := x - f
  if r < 1 / 2 then f
  else if 1 / 2 < r then f + 1
  else if f % 2 = 0 then f else f + 1

/-- Rounding of an exact result to binary64: the nearest multiple of the
spacing `2^(e-52)` of the binade `e` of the value (not below `-1022`), ties to
even. Overflow is left to the caller. -/
def round64 (x : ℚ) : ℚ :=
  if x = 0 then 0
  else
    let e := max (binade |x|) (-1022)
    let quantum : ℚ := pow2 (e - 52)
    let n : ℚ := roundHalfEven (|x| / quantum)
    if x < 0 then -(n * quantum) else n * quantum

/-- A rounded result as a double: magnitudes of `2^1024` and more overflow to
an infinity. -/
def Dbl.ofRounded (r : ℚ) : Dbl :=
  if pow2 1024 ≤ r then Dbl.inf
  else if r ≤ -pow2 1024 then Dbl.negInf
  else Dbl.fin r

/-- Division `a / b` of two finite doubles, for a positive dividend `a`:
a zero divisor gives positive infinity (the divisor `fps` of `showFPS` is
never the negative zero for binary64 clock readings), otherwise the quotient
is rounded to binary64. -/
def Dbl.div (a b : ℚ) : Dbl :=
  if b = 0 then Dbl.inf else Dbl.ofRounded (round64 (a / b))

/-- Two's-complement wrap-around of a 32-bit signed integer. -/
def wrapInt32 (z : Int) : Int :=
  (z + 2147483648) % 4294967296 - 2147483648

/-- The three digits that follow the decimal point, for a number of
thousandths `m`. -/
def fraction3 (m : Nat) : List Char :=
  [(m / 100 % 10).digitChar, (m / 10 % 10).digitChar, (m % 10).digitChar]

/-- Text that `ss << fixed << x` writes for a double `x` once
`ss.precision(3)` is set: sign, integer part, a point and exactly three
digits, the value being rounded to the nearest thousandth (ties to even);
an infinity is written `inf` or `-inf`. -/
def fixed3 : Dbl → String
  | Dbl.inf => "inf"
  | Dbl.negInf => "-inf"
  | Dbl.fin q =>
    let m := roundHalfEven (|q| * 1000)
    (if q < 0 then "-" else "") ++ Nat.repr (m / 1000) ++ "." ++ String.mk (fraction3 m)

/-- Recognises fixed notation with exactly three digits after the decimal
point: an optional minus sign, at least one digit, a point, three digits. -/
def isFixed3 (s : String) : Bool :=
  let cs := s.data
  let body := if cs.head? = some '-' then cs.tail else cs
  let whole := body.takeWhile Char.isDigit
  let rest := body.dropWhile Char.isDigit
  !whole.isEmpty && rest.head? == some '.' && rest.tail.length == 3 && rest.tail.all Char.isDigit

/-- Number written by a string of decimal digits. -/
def digitsValue (cs : List Char) : Nat :=
  cs.foldl (fun acc c => acc * 10 + (c.toNat - 48)) 0

/-- Reads a text in fixed notation with exactly three digits after the
decimal point and gives the number it writes; any other text is refused. -/
def readFixed3 (s : String) : Option ℚ :=
  if isFixed3 s then
    let cs := s.data
    let body := if cs.head? = some '-' then cs.tail else cs
    let v : ℚ := (digitsValue (body.takeWhile Char.isDigit) : ℚ)
      + (digitsValue (body.dropWhile Char.isDigit).tail : ℚ) / 1000
    some (if cs.head? = some '-' then -v else v)
  else none

/-! ## Calls into the libraries -/

/-- Shader kinds handed to `glCreateShader`. -/
inductive ShaderType where
  | GL_VERTEX_SHADER
  | GL_FRAGMENT_SHADER
  deriving DecidableEq

/-- Primitive kinds handed to `glDrawArrays`. -/
inductive DrawMode where
  | GL_TRIANGLES
  deriving DecidableEq

/-- Window hints set by `main`. -/
inductive Hint where
  | GLFW_CONTEXT_VERSION_MAJOR
  | GLFW_CONTEXT_VERSION_MINOR
  | GLFW_OPENGL_PROFILE
  deriving DecidableEq

/-- Values given to the window hints. -/
inductive HintValue where
  | int (n : Int)
  | GLFW_OPENGL_CORE_PROFILE
  deriving DecidableEq

/-- One call made by the program, with the arguments that matter. Handles of
the single window are left out. -/
inductive Call where
  | glfwInit
  | glfwWindowHint (hint : Hint) (value : HintValue)
  | glfwCreateWindow (width height : Int) (title : String)
  | cout (text : String)
  | glfwTerminate
  | systemPause
  | glfwMakeContextCurrent
  | gladLoadGLLoader
  | glViewport (x y width height : Int)
  | glfwSetFramebufferSizeCallback
  | glCreateShader (type : ShaderType)
  | glShaderSource (shader : Int) (source : String)
  | glCompileShader (shader : Int)
  | glGetShaderiv (shader : Int)
  | glGetShaderInfoLog (shader : Int) (maxLength : Nat)
  | glCreateProgram
  | glAttachShader (program shader : Int)
  | glLinkProgram (program : Int)
  | glGetProgramiv (program : Int)
  | glGetProgramInfoLog (program : Int) (maxLength : Nat)
  | glDeleteShader (shader : Int)
  | glGenBuffers (n : Nat)
  | glGenVertexArrays (n : Nat)
  | glBindVertexArray (array : Nat)
  | glBindBuffer (buffer : Nat)
  | glBufferData (size : Nat) (data : List ℚ)
  | glVertexAttribPointer (index : Nat) (size : Nat) (normalized : Bool) (stride : Nat)
      (pointer : Nat)
  | glEnableVertexAttribArray (index : Nat)
  | glfwWindowShouldClose
  | glfwGetKey
  | glfwSetWindowShouldClose (value : Bool)
  | glClearColor (red green blue alpha : ℚ)
  | glClear
  | glUseProgram (program : Int)
  | glDrawArrays (mode : DrawMode) (first count : Nat)
  | glfwPollEvents
  | glfwSwapBuffers
  | glfwGetTime
  | glfwSetWindowTitle (title : String)
  deriving DecidableEq

/-- Recognises `glfwSetWindowTitle`. -/
def Call.isSetWindowTitle : Call → Bool
  | Call.glfwSetWindowTitle _ => true
  | _ => false

/-- Recognises `glDeleteShader`. -/
def Call.isDeleteShader : Call → Bool
  | Call.glDeleteShader _ => true
  | _ => false

/-- Recognises the draw step, `glUseProgram` or `glDrawArrays`. -/
def Call.isDraw : Call → Bool
  | Call.glUseProgram _ => true
  | Call.glDrawArrays _ _ _ => true
  | _ => false

/-- Text written to standard output by a run, piece by piece. -/
def stdoutOf (calls : List Call) : List String :=
  calls.filterMap fun c =>
    match c with
    | Call.cout s => some s
    | _ => none

/-! ## Program state -/

/-- The mutable state the program's functions share: the window's close flag
and title, and the statics `previousSeconds` and `frameCount` of `showFPS`. -/
structure World where
  shouldClose : Bool
  title : String
  previousSeconds : ℚ
  frameCount : Int
  deriving DecidableEq

/-- State when the game loop starts: the window was created with its first
title, no close request yet, and the statics hold their initialisers. -/
def initialWorld : World :=
  { shouldClose := false, title := "My first openGL thing", previousSeconds := 0, frameCount := 0 }

/-- Answers of the window system and of the driver during set-up. -/
structure Driver where
  windowCreated : Bool
  gladLoaded : Bool
  vertexShaderID : Int
  vertexCompileStatus : Bool
  vertexInfoLog : String
  fragmentShaderID : Int
  fragmentCompileStatus : Bool
  fragmentInfoLog : String
  shaderProgramID : Int
  linkStatus : Bool
  programInfoLog : String
  vboID1 : Nat
  vaoID1 : Nat

/-- What the outside world does during one iteration of the game loop. -/
structure FrameInput where
  /-- Whether `glfwGetKey(window, GLFW_KEY_ESCAPE) == GLFW_PRESS`. -/
  escapePressed : Bool
  /-- Framebuffer sizes reported while `glfwPollEvents` runs. -/
  resizes : List (Int × Int)
  /-- Whether the window system asks to close during `glfwPollEvents`. -/
  closeRequested : Bool
  /-- Reading of `glfwGetTime()` inside `showFPS`. -/
  currentSeconds : ℚ

/-! ## The functions of `main.cpp` -/

/-- Vertex shader source (`vertexShadersource`), up to its terminating NUL. -/
def vertexShadersource : String :=
  "#version 330 core\nlayout(location = 0) in vec3 aPos;\n\nvoid main()\n\x7b\ngl_Position = vec4(aPos.x, aPos.y, aPos.z, 1.0);\n\x7d\n"

/-- Fragment shader source (`fragmentShadersource`), up to its terminating
NUL. -/
def fragmentShadersource : String :=
  "#version 330 core\nout vec4 FragColor; \n\nvoid main()\n\x7b\nFragColor = vec4(1.0f,0.5f, 0.2f, 1.0f);\n\x7d\n"

/-- The triangle's nine coordinates (`vertices`). -/
def vertices : List ℚ :=
  [0.5, -0.5, 0, -0.5, -0.5, 0, 0.0, 0.5, 0]

/-- Embedding of `windowResizeCallBack`. -/
def windowResizeCallBack (width height : Int) : List Call :=
  [Call.glViewport 0 0 width height]

/-- Embedding of `processInputs`: ask for the Escape key and, when it is
pressed, set the close flag. -/
def processInputs (escapePressed : Bool) (w : World) : World × List Call :=
  if escapePressed then
    ({ w with shouldClose := true }, [Call.glfwGetKey, Call.glfwSetWindowShouldClose true])
  else
    (w, [Call.glfwGetKey])

/-- The text put into the string stream of `showFPS`:
`ss << fixed << "FPS: " << fps << " Frame Time: " << msPerFrame << "(ms)" << endl`
with precision 3. -/
def titleText (fps : ℚ) (msPerFrame : Dbl) : String :=
  "FPS: " ++ fixed3 (Dbl.fin fps) ++ " Frame Time: " ++ fixed3 msPerFrame ++ "(ms)" ++ "\n"

/-- Embedding of `showFPS`, with the reading of `glfwGetTime()` as input. -/
def showFPS (currentSeconds : ℚ) (w : World) : World × List Call :=
  let elapsedSeconds := round64 (currentSeconds - w.previousSeconds)
  let r : World × List Call :=
    if elapsedSeconds > 0.25 then
      let fps := round64 ((w.frameCount : ℚ) / elapsedSeconds)
      let msPerFrame := Dbl.div 1000 fps
      let ss := titleText fps msPerFrame
      ({ w with previousSeconds := currentSeconds, title := ss, frameCount := 0 },
        [Call.glfwSetWindowTitle ss])
    else
      (w, [])
  ({ r.1 with frameCount := wrapInt32 (r.1.frameCount + 1) }, Call.glfwGetTime :: r.2)

/-- Lines 76 to 126 of `main`: build the two shaders and the program. -/
def shaderBuild (d : Driver) : List Call :=
  [Call.glCreateShader ShaderType.GL_VERTEX_SHADER,
    Call.glShaderSource d.vertexShaderID vertexShadersource,
    Call.glCompileShader d.vertexShaderID,
    Call.glGetShaderiv d.vertexShaderID]
  ++ (if !d.vertexCompileStatus then
        [Call.glGetShaderInfoLog d.vertexShaderID 512,
          Call.cout ("Vertex Shader error!" ++ d.vertexInfoLog ++ "\n"),
          Call.systemPause]
      else [])
  ++ [Call.glCreateShader ShaderType.GL_FRAGMENT_SHADER,
    Call.glShaderSource d.fragmentShaderID fragmentShadersource,
    Call.glCompileShader d.fragmentShaderID,
    Call.glGetShaderiv d.fragmentShaderID]
  ++ (if !d.fragmentCompileStatus then
        [Call.glGetShaderInfoLog d.fragmentShaderID 512,
          Call.cout ("Fragment shader error!: " ++ d.fragmentInfoLog ++ "\n"),
          Call.systemPause]
      else [])
  ++ [Call.glCreateProgram,
    Call.glAttachShader d.shaderProgramID d.vertexShaderID,
    Call.glAttachShader d.shaderProgramID d.fragmentShaderID,
    Call.glLinkProgram d.shaderProgramID,
    Call.glGetProgramiv d.shaderProgramID]
  ++ (if !d.linkStatus then
        [Call.glGetProgramInfoLog d.shaderProgramID 512,
          Call.cout ("Shader Program Linking Error!: " ++ d.programInfoLog ++ "\n"),
          Call.systemPause]
      else [])
  ++ [Call.glDeleteShader d.vertexShaderID,
    Call.glDeleteShader d.fragmentShaderID]

/-- Lines 131 to 176 of `main`: upload the triangle and describe its layout. -/
def geometryUpload (d : Driver) : List Call :=
  [Call.glGenBuffers 1,
    Call.glGenVertexArrays 1,
    Call.glBindVertexArray d.vaoID1,
    Call.glBindBuffer d.vboID1,
    Call.glBufferData 36 vertices,
    Call.glVertexAttribPointer 0 3 false 12 0,
    Call.glEnableVertexAttribArray 0,
    Call.glBindVertexArray 0]

/-- What `glfwPollEvents` does to the program: it runs the resize callback
for every reported size and records a close request. -/
def pollEvents (f : FrameInput) (w : World) : World × List Call :=
  ({ w with shouldClose := w.shouldClose || f.closeRequested },
    Call.glfwPollEvents :: (f.resizes.map fun s => windowResizeCallBack s.1 s.2).flatten)

/-- Body of the game loop, lines 181 to 207 of `main`. -/
def loopBody (d : Driver) (f : FrameInput) (w : World) : World × List Call :=
  let a := processInputs f.escapePressed w
  let render : List Call :=
    [Call.glClearColor 0 0 1 1,
      Call.glClear,
      Call.glUseProgram d.shaderProgramID,
      Call.glBindVertexArray d.vaoID1,
      Call.glDrawArrays DrawMode.GL_TRIANGLES 0 3]
  let b := pollEvents f a.1
  let c := showFPS f.currentSeconds b.1
  (c.1, a.2 ++ render ++ b.2 ++ [Call.glfwSwapBuffers] ++ c.2)

/-- The game loop `while (!glfwWindowShouldClose(window))`, run
against the inputs of the iterations that are observed. The result holds the
final state, the calls made, and whether the loop was left; it is `false`
when the observed inputs end while the loop is still running. -/
def gameLoop (d : Driver) : World → List FrameInput → World × List Call × Bool
  | w, [] => (w, [Call.glfwWindowShouldClose], w.shouldClose)
  | w, f :: rest =>
    if w.shouldClose then
      (w, [Call.glfwWindowShouldClose], true)
    else
      let b := loopBody d f w
      let r := gameLoop d b.1 rest
      (r.1, Call.glfwWindowShouldClose :: b.2 ++ r.2.1, r.2.2)

/-- Embedding of `main`: the calls it makes and whether it returned. -/
def main (d : Driver) (frames : List FrameInput) : List Call × Bool :=
  let start : List Call :=
    [Call.glfwInit,
      Call.glfwWindowHint Hint.GLFW_CONTEXT_VERSION_MAJOR (HintValue.int 3),
      Call.glfwWindowHint Hint.GLFW_CONTEXT_VERSION_MINOR (HintValue.int 3),
      Call.glfwWindowHint Hint.GLFW_OPENGL_PROFILE HintValue.GLFW_OPENGL_CORE_PROFILE,
      Call.glfwCreateWindow 800 600 "My first openGL thing"]
  if !d.windowCreated then
    (start ++ [Call.cout "Window failed to build\n", Call.glfwTerminate, Call.systemPause], true)
  else if !d.gladLoaded then
    (start ++ [Call.glfwMakeContextCurrent, Call.gladLoadGLLoader,
      Call.cout "GLAD failed to initialise\n", Call.glfwTerminate, Call.systemPause], true)
  else
    let setup : List Call :=
      start ++ [Call.glfwMakeContextCurrent, Call.gladLoadGLLoader,
        Call.glViewport 0 0 800 600, Call.glfwSetFramebufferSizeCallback]
      ++ shaderBuild d ++ geometryUpload d
    let r := gameLoop d initialWorld frames
    if r.2.2 then (setup ++ r.2.1 ++ [Call.glfwTerminate], true)
    else (setup ++ r.2.1, false)

/-! ## Runs of `showFPS` -/

/-- Whether a call of `showFPS` took a sample, read off the calls it made:
it set the window title. -/
def tookSample (calls : List Call) : Bool :=
  calls.any Call.isSetWindowTitle

/-- Successive calls of `showFPS`, one per clock reading: the final state and
the calls made by each call. -/
def runFPS : World → List ℚ → World × List (List Call)
  | w, [] => (w, [])
  | w, t :: ts =>
    let r := showFPS t w
    let rr := runFPS r.1 ts
    (rr.1, r.2 :: rr.2)

/-- Clock readings of the calls that took a sample, in order. -/
def sampleTimes : World → List ℚ → List ℚ
  | _, [] => []
  | w, t :: ts =>
    let r := showFPS t w
    if tookSample r.2 then t :: sampleTimes r.1 ts else sampleTimes r.1 ts

/-- Synthetic clock: the call number `k` (counted from 1) reads `0.25 * k`;
the readings of the first `n` calls. -/
def syntheticClock (n : Nat) : List ℚ :=
  (List.range n).map fun i => 0.25 * ((i : ℚ) + 1)

/-! ## Concrete inputs -/

/-- A set-up in which window, loader, both compilations and the link
succeed. -/
def workingDriver : Driver :=
  { windowCreated := true, gladLoaded := true,
    vertexShaderID := 1, vertexCompileStatus := true, vertexInfoLog := "",
    fragmentShaderID := 2, fragmentCompileStatus := true, fragmentInfoLog := "",
    shaderProgramID := 3, linkStatus := true, programInfoLog := "",
    vboID1 := 1, vaoID1 := 1 }

/-- A set-up in which the vertex shader does not compile and, as a
consequence, the program does not link. -/
def failingDriver : Driver :=
  { workingDriver with
    vertexCompileStatus := false, vertexInfoLog := "0:1: syntax error",
    linkStatus := false, programInfoLog := "vertex shader not compiled" }

/-- An iteration in which nothing happens outside the program. -/
def quietFrame (currentSeconds : ℚ) : FrameInput :=
  { escapePressed := false, resizes := [], closeRequested := false,
    currentSeconds := currentSeconds }

/-- An iteration during which the Escape key is held down. -/
def escapeFrame (currentSeconds : ℚ) : FrameInput :=
  { escapePressed := true, resizes := [], closeRequested := false,
    currentSeconds := currentSeconds }

/-! ## Facts about the rounding to binary64 -/

theorem pow2_eq (e : Int) : pow2 e = (2 : ℚ) ^ e := by
  unfold pow2
  by_cases h : 0 ≤ e
  · obtain ⟨n, rfl⟩ := Int.eq_ofNat_of_zero_le h
    simp [Nat.one_shiftLeft]
  · have h' : 0 ≤ -e := by omega
    obtain ⟨n, hn⟩ := Int.eq_ofNat_of_zero_le h'
    have he : e = -(n : ℤ) := by omega
    subst he
    simp [h, Nat.one_shiftLeft]

theorem pow2_pos (e : Int) : 0 < pow2 e := by
  rw [pow2_eq]; positivity

theorem binade_spec (a : ℚ) (ha : 0 < a) :
    pow2 (binade a) ≤ a ∧ a < pow2 (binade a + 1) := by
  unfold binade
  by_cases h : pow2 (binadeSearch 2200 a) ≤ a ∧ a < pow2 (binadeSearch 2200 a + 1)
  · simp only [h, and_self, if_true]
  · simp only [h, if_false]
    rw [pow2_eq, pow2_eq]
    constructor
    · have := Int.zpow_log_le_self (R := ℚ) (b := 2) (by norm_num) ha
      simpa using this
    · have := Int.lt_zpow_succ_log_self (R := ℚ) (b := 2) (by norm_num) a
      simpa using this

theorem roundHalfEven_le (y : ℚ) (N : ℕ) (hy : y ≤ N) : roundHalfEven y ≤ N := by
  have hf : ⌊y⌋.toNat ≤ N := by
    have : ⌊y⌋ ≤ (N : ℤ) := by
      have h := Int.floor_mono hy
      simpa using h
    omega
  unfold roundHalfEven
  simp only
  by_cases h1 : y - (⌊y⌋.toNat : ℚ) < 1 / 2
  · simp only [h1, if_true]; exact hf
  · have hlt : ⌊y⌋.toNat < N := by
      rcases Nat.lt_or_ge ⌊y⌋.toNat N with h | h
      · exact h
      · exfalso
        have hN : (N : ℚ) ≤ (⌊y⌋.toNat : ℚ) := by exact_mod_cast h
        apply h1
        linarith
    simp only [h1, if_false]
    split_ifs <;> omega

theorem le_roundHalfEven (y : ℚ) (N : ℕ) (hy : (N : ℚ) ≤ y) : N ≤ roundHalfEven y := by
  have hf : N ≤ ⌊y⌋.toNat := by
    have : (N : ℤ) ≤ ⌊y⌋ := Int.le_floor.2 (by exact_mod_cast hy)
    omega
  unfold roundHalfEven
  simp only
  split_ifs <;> omega

theorem roundHalfEven_near (y : ℚ) (hy : 0 ≤ y) : |(roundHalfEven y : ℚ) - y| ≤ 1 / 2 := by
  have h0 : 0 ≤ ⌊y⌋ := Int.floor_nonneg.2 hy
  have hcast : ((⌊y⌋.toNat : ℕ) : ℚ) = (⌊y⌋ : ℚ) := by
    have : ((⌊y⌋.toNat : ℕ) : ℤ) = ⌊y⌋ := Int.toNat_of_nonneg h0
    exact_mod_cast this
  have hle := Int.floor_le y
  have hlt := Int.lt_floor_add_one y
  unfold roundHalfEven
  simp only
  rw [abs_le]
  split_ifs with h1 h2 h3 <;> push_cast <;> constructor <;> linarith

theorem round64_le_quarter (x : ℚ) (hx : x ≤ 1 / 4) : round64 x ≤ 1 / 4 := by
  unfold round64
  by_cases h0 : x = 0
  · simp [h0]
  simp only [h0, if_false]
  by_cases hneg : x < 0
  · simp only [hneg, if_true]
    have := pow2_pos (max (binade |x|) (-1022) - 52)
    have hn : (0 : ℚ) ≤ (roundHalfEven (|x| / pow2 (max (binade |x|) (-1022) - 52)) : ℚ) :=
      Nat.cast_nonneg _
    nlinarith [mul_nonneg hn this.le]
  · simp only [hneg, if_false]
    have hpos : 0 < x := lt_of_le_of_ne (not_lt.1 hneg) (Ne.symm h0)
    rw [abs_of_pos hpos]
    obtain ⟨hlo, -⟩ := binade_spec x hpos
    have hb : binade x ≤ -2 := by
      have h2 : (2 : ℚ) ^ (binade x) ≤ (2 : ℚ) ^ (-2 : ℤ) := by
        rw [← pow2_eq]; refine hlo.trans (hx.trans (by norm_num))
      exact (zpow_le_zpow_iff_right₀ (by norm_num : (1 : ℚ) < 2)).1 h2
    generalize he : max (binade x) (-1022) = e
    have he2 : e ≤ -2 := by rw [← he]; exact max_le hb (by norm_num)
    have hq := pow2_pos (e - 52)
    obtain ⟨j, hj⟩ := Int.eq_ofNat_of_zero_le (show (0 : ℤ) ≤ 50 - e by omega)
    have hN : ((2 ^ j : ℕ) : ℚ) * pow2 (e - 52) = 1 / 4 := by
      rw [pow2_eq, Nat.cast_pow, Nat.cast_ofNat, ← zpow_natCast, ← zpow_add₀ (by norm_num), ← hj]
      have : (50 - e + (e - 52)) = -2 := by ring
      rw [this]; norm_num
    have hy : x / pow2 (e - 52) ≤ ((2 ^ j : ℕ) : ℚ) := by
      rw [div_le_iff₀ hq, hN]; exact hx
    have hn := roundHalfEven_le _ _ hy
    have hn' : (roundHalfEven (x / pow2 (e - 52)) : ℚ) ≤ ((2 ^ j : ℕ) : ℚ) := by exact_mod_cast hn
    calc (roundHalfEven (x / pow2 (e - 52)) : ℚ) * pow2 (e - 52)
        ≤ ((2 ^ j : ℕ) : ℚ) * pow2 (e - 52) := mul_le_mul_of_nonneg_right hn' hq.le
      _ = 1 / 4 := hN

theorem quarter_lt_round64 (x : ℚ) (hx : 1 / 4 + 1 / 2 ^ 54 ≤ x) : 1 / 4 < round64 x := by
  have hpos : 0 < x := lt_of_lt_of_le (by norm_num) hx
  unfold round64
  simp only [ne_of_gt hpos, not_lt.2 hpos.le, if_false]
  rw [abs_of_pos hpos]
  obtain ⟨hlo, hhi⟩ := binade_spec x hpos
  have hb : -2 ≤ binade x := by
    have h2 : (2 : ℚ) ^ (-2 : ℤ) < (2 : ℚ) ^ (binade x + 1) := by
      rw [← pow2_eq (binade x + 1)]; refine lt_of_lt_of_le ?_ (hx.trans hhi.le); norm_num
    have := (zpow_lt_zpow_iff_right₀ (by norm_num : (1 : ℚ) < 2)).1 h2
    omega
  have hmax : max (binade x) (-1022) = binade x := max_eq_left (by omega)
  rw [hmax]
  generalize binade x = e at hlo hb
  have hq := pow2_pos (e - 52)
  rcases eq_or_lt_of_le hb with h2 | h2
  · subst h2
    have hqv : pow2 (-2 - 52) = 1 / 2 ^ 54 := by rw [pow2_eq]; norm_num
    have hy : ((2 ^ 52 + 1 : ℕ) : ℚ) ≤ x / pow2 (-2 - 52) := by
      rw [le_div_iff₀ hq, hqv]; push_cast; linarith
    have hn := le_roundHalfEven _ _ hy
    have hn' : ((2 ^ 52 + 1 : ℕ) : ℚ) ≤ (roundHalfEven (x / pow2 (-2 - 52)) : ℚ) := by
      exact_mod_cast hn
    calc (1 : ℚ) / 4 < ((2 ^ 52 + 1 : ℕ) : ℚ) * pow2 (-2 - 52) := by rw [hqv]; norm_num
      _ ≤ _ := mul_le_mul_of_nonneg_right hn' hq.le
  · have hN : ((2 ^ 52 : ℕ) : ℚ) * pow2 (e - 52) = pow2 e := by
      rw [pow2_eq, pow2_eq, Nat.cast_pow, Nat.cast_ofNat, ← zpow_natCast,
        ← zpow_add₀ (by norm_num)]
      congr 1; push_cast; ring
    have hy : ((2 ^ 52 : ℕ) : ℚ) ≤ x / pow2 (e - 52) := by
      rw [le_div_iff₀ hq, hN]; exact hlo
    have hn := le_roundHalfEven _ _ hy
    have hn' : ((2 ^ 52 : ℕ) : ℚ) ≤ (roundHalfEven (x / pow2 (e - 52)) : ℚ) := by
      exact_mod_cast hn
    have he : (2 : ℚ) ^ (-1 : ℤ) ≤ pow2 e := by
      rw [pow2_eq]; exact zpow_le_zpow_right₀ (by norm_num) (by omega)
    calc (1 : ℚ) / 4 < (2 : ℚ) ^ (-1 : ℤ) := by norm_num
      _ ≤ pow2 e := he
      _ = ((2 ^ 52 : ℕ) : ℚ) * pow2 (e - 52) := hN.symm
      _ ≤ _ := mul_le_mul_of_nonneg_right hn' hq.le

/-! ## Facts about the rendering of numbers -/

theorem isDigit_digitChar (k : Nat) (h : k < 10) : (Nat.digitChar k).isDigit = true := by
  interval_cases k <;> decide

theorem value_digitChar (k : Nat) (h : k < 10) : (Nat.digitChar k).toNat - 48 = k := by
  interval_cases k <;> decide

theorem isDigit_toDigitsCore (fuel : Nat) :
    ∀ (n : Nat) (ds : List Char), (∀ c ∈ ds, c.isDigit = true) →
      ∀ c ∈ Nat.toDigitsCore 10 fuel n ds, c.isDigit = true := by
  induction fuel with
  | zero => intro n ds h c hc; exact h c (by simpa [Nat.toDigitsCore] using hc)
  | succ fuel ih =>
    intro n ds h c hc
    have hd : (Nat.digitChar (n % 10)).isDigit = true :=
      isDigit_digitChar _ (Nat.mod_lt _ (by decide))
    have hcons : ∀ c ∈ Nat.digitChar (n % 10) :: ds, c.isDigit = true := by
      intro c hc
      rcases List.mem_cons.1 hc with rfl | hc
      · exact hd
      · exact h c hc
    unfold Nat.toDigitsCore at hc
    by_cases h0 : n / 10 = 0
    · simp only [h0, if_true] at hc
      exact hcons c hc
    · simp only [h0, if_false] at hc
      exact ih _ _ hcons c hc

theorem toDigitsCore_ne_nil (fuel : Nat) :
    ∀ (n : Nat) (ds : List Char), ds ≠ [] → Nat.toDigitsCore 10 fuel n ds ≠ [] := by
  induction fuel with
  | zero => intro n ds h; simpa [Nat.toDigitsCore] using h
  | succ fuel ih =>
    intro n ds _
    unfold Nat.toDigitsCore
    by_cases h0 : n / 10 = 0
    · simp [h0]
    · simp only [h0, if_false]
      exact ih _ _ (by simp)

theorem foldl_toDigitsCore (fuel : Nat) :
    ∀ (n : Nat) (ds : List Char), n < fuel →
      (Nat.toDigitsCore 10 fuel n ds).foldl (fun acc c => acc * 10 + (c.toNat - 48)) 0
        = ds.foldl (fun acc c => acc * 10 + (c.toNat - 48)) n := by
  induction fuel with
  | zero => intro n ds h; omega
  | succ fuel ih =>
    intro n ds h
    have hv := value_digitChar (n % 10) (Nat.mod_lt _ (by decide))
    unfold Nat.toDigitsCore
    by_cases h0 : n / 10 = 0
    · simp only [h0, if_true, List.foldl_cons, hv]
      congr 1; omega
    · simp only [h0, if_false]
      rw [ih (n / 10) _ (by omega)]
      simp only [List.foldl_cons, hv]
      congr 1; omega

theorem digitsValue_repr (n : Nat) : digitsValue (Nat.repr n).data = n := by
  have h := foldl_toDigitsCore (n + 1) n [] (by omega)
  simpa [digitsValue, Nat.repr, Nat.toDigits, List.asString] using h

theorem digitsValue_fraction3 (m : Nat) : digitsValue (fraction3 m) = m % 1000 := by
  have h1 := value_digitChar (m / 100 % 10) (Nat.mod_lt _ (by decide))
  have h2 := value_digitChar (m / 10 % 10) (Nat.mod_lt _ (by decide))
  have h3 := value_digitChar (m % 10) (Nat.mod_lt _ (by decide))
  simp only [digitsValue, fraction3, List.foldl_cons, List.foldl_nil, h1, h2, h3]
  omega

theorem isDigit_repr (n : Nat) : ∀ c ∈ (Nat.repr n).data, c.isDigit = true := by
  intro c hc
  have hc2 : c ∈ Nat.toDigitsCore 10 (n + 1) n [] := by
    simpa [Nat.repr, Nat.toDigits, List.asString] using hc
  exact isDigit_toDigitsCore _ _ _ (by simp) c hc2

theorem repr_data_ne_nil (n : Nat) : (Nat.repr n).data ≠ [] := by
  have h : Nat.toDigitsCore 10 (n + 1) n [] ≠ [] := by
    unfold Nat.toDigitsCore
    by_cases h0 : n / 10 = 0
    · simp [h0]
    · simp only [h0, if_false]
      exact toDigitsCore_ne_nil _ _ _ (by simp)
  simpa [Nat.repr, Nat.toDigits, List.asString] using h

theorem takeWhile_digits_point (ds rest : List Char) (h : ∀ c ∈ ds, c.isDigit = true) :
    (ds ++ '.' :: rest).takeWhile Char.isDigit = ds
    ∧ (ds ++ '.' :: rest).dropWhile Char.isDigit = '.' :: rest := by
  induction ds with
  | nil =>
    have : Char.isDigit '.' = false := by decide
    simp [List.takeWhile, List.dropWhile, this]
  | cons d ds ih =>
    have hd : d.isDigit = true := h d (by simp)
    have ih2 := ih (fun c hc => h c (by simp [hc]))
    simp [List.takeWhile, List.dropWhile, hd, ih2.1, ih2.2]

theorem fraction3_digits (m : Nat) :
    (fraction3 m).length = 3 ∧ ∀ c ∈ fraction3 m, c.isDigit = true := by
  refine ⟨rfl, ?_⟩
  intro c hc
  simp only [fraction3, List.mem_cons, List.mem_singleton, List.not_mem_nil, or_false] at hc
  rcases hc with rfl | rfl | rfl <;> exact isDigit_digitChar _ (Nat.mod_lt _ (by decide))

/-- The parts of the text of a finite number: whether it starts with a minus
sign, and the digits before and after the point. -/
theorem fixed3_parts (q : ℚ) :
    (((fixed3 (Dbl.fin q)).data.head? = some '-') ↔ q < 0)
    ∧ (if (fixed3 (Dbl.fin q)).data.head? = some '-' then (fixed3 (Dbl.fin q)).data.tail
        else (fixed3 (Dbl.fin q)).data)
        = (Nat.repr (roundHalfEven (|q| * 1000) / 1000)).data
            ++ '.' :: fraction3 (roundHalfEven (|q| * 1000)) := by
  have hds := isDigit_repr (roundHalfEven (|q| * 1000) / 1000)
  have hne := repr_data_ne_nil (roundHalfEven (|q| * 1000) / 1000)
  have hdata : (fixed3 (Dbl.fin q)).data
      = (if q < 0 then ['-'] else []) ++ ((Nat.repr (roundHalfEven (|q| * 1000) / 1000)).data
          ++ '.' :: fraction3 (roundHalfEven (|q| * 1000))) := by
    unfold fixed3
    by_cases hq : q < 0 <;> simp [hq, String.data_append]
  rw [hdata]
  generalize (Nat.repr (roundHalfEven (|q| * 1000) / 1000)).data = ds at hds hne
  by_cases hq : q < 0
  · simp [hq]
  · cases ds with
    | nil => exact absurd rfl hne
    | cons d ds =>
      have hd : d ≠ '-' := by
        intro h
        have := hds d (by simp)
        rw [h] at this
        exact absurd this (by decide)
      simp [hq, hd]

theorem isFixed3_fixed3 (q : ℚ) : isFixed3 (fixed3 (Dbl.fin q)) = true := by
  obtain ⟨-, hbody⟩ := fixed3_parts q
  obtain ⟨hlen, hfr⟩ := fraction3_digits (roundHalfEven (|q| * 1000))
  obtain ⟨htake, hdrop⟩ := takeWhile_digits_point _ (fraction3 (roundHalfEven (|q| * 1000)))
    (isDigit_repr (roundHalfEven (|q| * 1000) / 1000))
  have hne := repr_data_ne_nil (roundHalfEven (|q| * 1000) / 1000)
  unfold isFixed3
  simp only [hbody, htake, hdrop]
  have hall : (fraction3 (roundHalfEven (|q| * 1000))).all Char.isDigit = true := by
    simpa [List.all_eq_true] using hfr
  generalize (Nat.repr (roundHalfEven (|q| * 1000) / 1000)).data = ds at hne
  cases ds with
  | nil => exact absurd rfl hne
  | cons d ds => simp [hlen, hall]

theorem readFixed3_fixed3 (q : ℚ) :
    readFixed3 (fixed3 (Dbl.fin q))
      = some (if q < 0 then -((roundHalfEven (|q| * 1000) : ℚ) / 1000)
              else (roundHalfEven (|q| * 1000) : ℚ) / 1000) := by
  obtain ⟨hsign, hbody⟩ := fixed3_parts q
  obtain ⟨htake, hdrop⟩ := takeWhile_digits_point _ (fraction3 (roundHalfEven (|q| * 1000)))
    (isDigit_repr (roundHalfEven (|q| * 1000) / 1000))
  unfold readFixed3
  simp only [isFixed3_fixed3, if_true, hbody, htake, hdrop, List.tail_cons, digitsValue_repr,
    digitsValue_fraction3]
  have hv : ((roundHalfEven (|q| * 1000) / 1000 : ℕ) : ℚ)
      + ((roundHalfEven (|q| * 1000) % 1000 : ℕ) : ℚ) / 1000
      = (roundHalfEven (|q| * 1000) : ℚ) / 1000 := by
    have := Nat.div_add_mod (roundHalfEven (|q| * 1000)) 1000
    have h2 : ((1000 * (roundHalfEven (|q| * 1000) / 1000)
        + roundHalfEven (|q| * 1000) % 1000 : ℕ) : ℚ) = (roundHalfEven (|q| * 1000) : ℚ) := by
      exact_mod_cast this
    push_cast at h2
    linarith
  rw [hv]
  by_cases hq : q < 0
  · simp [hq, hsign.2 hq]
  · have : ¬ (fixed3 (Dbl.fin q)).data.head? = some '-' := fun h => hq (hsign.1 h)
    simp [hq, this]

/-- The text of a finite number reads back as a value within half a
thousandth of the number. -/
theorem readFixed3_near (q : ℚ) :
    ∃ v : ℚ, readFixed3 (fixed3 (Dbl.fin q)) = some v ∧ |v - q| ≤ 1 / 2000 := by
  refine ⟨_, readFixed3_fixed3 q, ?_⟩
  have h := roundHalfEven_near (|q| * 1000) (by positivity)
  rw [abs_le] at h
  generalize (roundHalfEven (|q| * 1000) : ℚ) = m at h ⊢
  rw [abs_le]
  by_cases hq : q < 0
  · simp only [hq, if_true]
    rw [abs_of_neg hq] at h
    constructor <;> linarith
  · simp only [hq, if_false]
    rw [abs_of_nonneg (not_lt.1 hq)] at h
    constructor <;> linarith

/-! ## Facts about one call of `showFPS` -/

theorem round64_quarter : round64 (1 / 4) = 1 / 4 := by with_unfolding_all decide

theorem round64_half : round64 (1 / 2) = 1 / 2 := by with_unfolding_all decide

theorem gt_of_round64_gt (x : ℚ) (h : round64 x > 0.25) : x > 0.25 := by
  by_contra hx
  have h1 : x ≤ 1 / 4 := by
    have := not_lt.1 hx
    norm_num at this
    linarith
  have h2 := round64_le_quarter x h1
  norm_num at h
  linarith

theorem round64_gt_of_ge (x : ℚ) (h : x ≥ 0.25 + 1 / 2 ^ 54) : round64 x > 0.25 := by
  have h1 : 1 / 4 + 1 / 2 ^ 54 ≤ x := by
    norm_num at h ⊢
    linarith
  have h2 := quarter_lt_round64 x h1
  norm_num
  linarith

theorem tookSample_showFPS (t : ℚ) (w : World) :
    tookSample (showFPS t w).2 = decide (round64 (t - w.previousSeconds) > 0.25) := by
  unfold showFPS tookSample
  by_cases h : round64 (t - w.previousSeconds) > 0.25
  · simp [h, Call.isSetWindowTitle]
  · simp [h, Call.isSetWindowTitle]

theorem showFPS_of_gt (t : ℚ) (w : World) (h : round64 (t - w.previousSeconds) > 0.25) :
    showFPS t w =
      ({ shouldClose := w.shouldClose,
         title := titleText (round64 (w.frameCount / round64 (t - w.previousSeconds)))
           (Dbl.div 1000 (round64 (w.frameCount / round64 (t - w.previousSeconds)))),
         previousSeconds := t,
         frameCount := 1 },
       [Call.glfwGetTime,
        Call.glfwSetWindowTitle
          (titleText (round64 (w.frameCount / round64 (t - w.previousSeconds)))
            (Dbl.div 1000 (round64 (w.frameCount / round64 (t - w.previousSeconds)))))]) := by
  unfold showFPS
  simp [h, wrapInt32]

theorem showFPS_of_not_gt (t : ℚ) (w : World) (h : ¬ round64 (t - w.previousSeconds) > 0.25) :
    showFPS t w =
      ({ w with frameCount := wrapInt32 (w.frameCount + 1) }, [Call.glfwGetTime]) := by
  unfold showFPS
  simp [h]

/-- C1, as stated, fails at the boundary: from the initial state (stored
time stamp 0) a clock reading of exactly 0.25 gives an elapsed time of 0.25,
which is at least 0.25, and yet `showFPS` takes no sample. -/
theorem showFPS_boundary_no_sample :
    ¬ (tookSample (showFPS 0.25 initialWorld).2 = true
        ↔ (0.25 : ℚ) - initialWorld.previousSeconds ≥ 0.25) := by
  with_unfolding_all decide

/-- C1, amended: for every stored state and every clock reading, `showFPS`
takes a sample exactly when the elapsed time it computes, the clock reading
minus the stored time stamp as a double, is strictly greater than 0.25. A
sample implies that the exact difference exceeds 0.25, and an exact
difference of at least `0.25 + 2^-54`, the next double after 0.25, implies a
sample. On a sampling call the clock reading is stored as the new time stamp
and the window title is set; on all other calls time stamp and title stay as
they were. -/
theorem showFPS_samples_iff_gt (t : ℚ) (w : World) :
    (tookSample (showFPS t w).2 = true ↔ round64 (t - w.previousSeconds) > 0.25)
    ∧ (tookSample (showFPS t w).2 = true → t - w.previousSeconds > 0.25)
    ∧ (t - w.previousSeconds ≥ 0.25 + 1 / 2 ^ 54 → tookSample (showFPS t w).2 = true)
    ∧ (showFPS t w).1.previousSeconds
        = (if round64 (t - w.previousSeconds) > 0.25 then t else w.previousSeconds)
    ∧ (showFPS t w).1.title
        = (if round64 (t - w.previousSeconds) > 0.25 then
            titleText (round64 (w.frameCount / round64 (t - w.previousSeconds)))
              (Dbl.div 1000 (round64 (w.frameCount / round64 (t - w.previousSeconds))))
           else w.title)
    ∧ (showFPS t w).2
        = Call.glfwGetTime ::
          (if round64 (t - w.previousSeconds) > 0.25 then
            [Call.glfwSetWindowTitle (showFPS t w).1.title]
           else []) := by
  have hiff : tookSample (showFPS t w).2 = true ↔ round64 (t - w.previousSeconds) > 0.25 := by
    rw [tookSample_showFPS]; simp
  refine ⟨hiff, fun h => gt_of_round64_gt _ (hiff.1 h),
    fun h => hiff.2 (round64_gt_of_ge _ h), ?_⟩
  by_cases h : round64 (t - w.previousSeconds) > 0.25
  · rw [showFPS_of_gt t w h]; simp [h]
  · rw [showFPS_of_not_gt t w h]; simp [h]

/-- The title digits are those of binary64 arithmetic: one frame counted in
49/128 seconds gives `fps = 128/49` rounded to double, and `1000 / fps` rounded
again renders as 382.813, where the exact quotient 382.8125 would be a tie;
25 frames in 39/128 seconds and one frame in 2000 seconds likewise. -/
theorem title_digits_follow_binary64 :
    (runFPS initialWorld [0.25, 49 / 128]).2
        = [[Call.glfwGetTime],
           [Call.glfwGetTime, Call.glfwSetWindowTitle "FPS: 2.612 Frame Time: 382.813(ms)\n"]]
    ∧ (showFPS (39 / 128) { initialWorld with frameCount := 25 }).1.title
        = "FPS: 82.051 Frame Time: 12.187(ms)\n"
    ∧ (showFPS 2000 { initialWorld with frameCount := 1 }).1.title
        = "FPS: 0.001 Frame Time: 2000000.000(ms)\n" := by
  with_unfolding_all decide

/-- C3, as stated, fails: driven from the initial state with the clock
readings 0.25 and 0.5, the second call samples with frame count 1 and elapsed
time 0.5, and the string handed to `glfwSetWindowTitle` is not
`"FPS: " ++ F ++ " Frame Time: " ++ M ++ "(ms)"`: a newline follows it. -/
theorem title_has_trailing_newline :
    (runFPS initialWorld [0.25, 0.5]).2
        = [[Call.glfwGetTime],
           [Call.glfwGetTime, Call.glfwSetWindowTitle "FPS: 2.000 Frame Time: 500.000(ms)\n"]]
    ∧ "FPS: 2.000 Frame Time: 500.000(ms)\n"
        ≠ "FPS: " ++ fixed3 (Dbl.fin (round64 (1 / 0.5))) ++ " Frame Time: "
            ++ fixed3 (Dbl.div 1000 (round64 (1 / 0.5))) ++ "(ms)" := by
  with_unfolding_all decide

/-- C3, amended: on every sampling call of `showFPS` with frame count `c` and
elapsed time `e` on which the frame time is finite, the string passed to
`glfwSetWindowTitle` is exactly `"FPS: " ++ F ++ " Frame Time: " ++ M ++ "(ms)"`
followed by one newline character and nothing else, where `F` renders
`fps = c / e` and `M` renders `1000 / fps`, both quotients being rounded to
double, each in fixed notation with exactly three digits after the decimal
point: the text reads back as a number within half a thousandth of the
value. -/
theorem showFPS_title_format (t : ℚ) (w : World) (ms : ℚ)
    (hs : tookSample (showFPS t w).2 = true)
    (hms : Dbl.div 1000 (round64 (w.frameCount / round64 (t - w.previousSeconds)))
      = Dbl.fin ms) :
    (showFPS t w).2
        = [Call.glfwGetTime,
           Call.glfwSetWindowTitle
            ("FPS: "
              ++ fixed3 (Dbl.fin (round64 (w.frameCount / round64 (t - w.previousSeconds))))
              ++ " Frame Time: " ++ fixed3 (Dbl.fin ms) ++ "(ms)" ++ "\n")]
    ∧ ms = round64 (1000 / round64 (w.frameCount / round64 (t - w.previousSeconds)))
    ∧ (∃ v : ℚ,
        readFixed3 (fixed3 (Dbl.fin (round64 (w.frameCount / round64 (t - w.previousSeconds)))))
          = some v
        ∧ |v - round64 (w.frameCount / round64 (t - w.previousSeconds))| ≤ 1 / 2000)
    ∧ (∃ v : ℚ, readFixed3 (fixed3 (Dbl.fin ms)) = some v ∧ |v - ms| ≤ 1 / 2000) := by
  have hgt : round64 (t - w.previousSeconds) > 0.25 := by
    rw [tookSample_showFPS] at hs
    simpa using hs
  refine ⟨?_, ?_, readFixed3_near _, readFixed3_near _⟩
  · rw [showFPS_of_gt t w hgt, hms]
    simp [titleText]
  · unfold Dbl.div Dbl.ofRounded at hms
    split_ifs at hms
    exact (Dbl.fin.inj hms).symm

/-- Witness for C3: the amended statement applied to a call at clock reading
0.5 with stored time stamp 0 and frame count 125, where `fps` is 250 and the
frame time is 4. -/
theorem showFPS_title_format_witness :
    tookSample (showFPS 0.5 { initialWorld with frameCount := 125 }).2 = true
    ∧ Dbl.div 1000 (round64 ((125 : ℤ) / round64 (0.5 - 0))) = Dbl.fin 4
    ∧ (showFPS 0.5 { initialWorld with frameCount := 125 }).2
        = [Call.glfwGetTime,
           Call.glfwSetWindowTitle
            ("FPS: " ++ fixed3 (Dbl.fin (round64 ((125 : ℤ) / round64 (0.5 - 0))))
              ++ " Frame Time: " ++ fixed3 (Dbl.fin 4) ++ "(ms)" ++ "\n")]
    ∧ (4 : ℚ) = round64 (1000 / round64 ((125 : ℤ) / round64 (0.5 - 0)))
    ∧ (∃ v : ℚ,
        readFixed3 (fixed3 (Dbl.fin (round64 ((125 : ℤ) / round64 (0.5 - 0))))) = some v
        ∧ |v - round64 ((125 : ℤ) / round64 (0.5 - 0))| ≤ 1 / 2000)
    ∧ (∃ v : ℚ, readFixed3 (fixed3 (Dbl.fin 4)) = some v ∧ |v - 4| ≤ 1 / 2000) :=
  ⟨by with_unfolding_all decide, by with_unfolding_all decide,
    showFPS_title_format 0.5 { initialWorld with frameCount := 125 } 4
      (by with_unfolding_all decide) (by with_unfolding_all decide)⟩

/-- C5, as stated, fails: with stored time stamp 1 and frame count 30, a call
at clock reading 1.5 takes a sample, and the frame count stored after the call
is 1, not 0. -/
theorem count_after_sample_not_zero :
    tookSample (showFPS 1.5 { initialWorld with previousSeconds := 1, frameCount := 30 }).2 = true
    ∧ (showFPS 1.5 { initialWorld with previousSeconds := 1, frameCount := 30 }).1.frameCount
        ≠ 0 := by
  with_unfolding_all decide

/-- C5, amended: a sampling call of `showFPS` resets the frame count to zero
and then counts the current frame, so after every call that takes a sample the
stored frame count is 1; the next call sees a count of 1. -/
theorem showFPS_count_after_sample (t : ℚ) (w : World)
    (hs : tookSample (showFPS t w).2 = true) :
    (showFPS t w).1.frameCount = 1 := by
  have hgt : round64 (t - w.previousSeconds) > 0.25 := by
    rw [tookSample_showFPS] at hs
    simpa using hs
  rw [showFPS_of_gt t w hgt]

/-- Witness for C5: the amended statement applied to a call at clock reading
1.5 with stored time stamp 1 and frame count 30. -/
theorem showFPS_count_after_sample_witness :
    tookSample (showFPS 1.5 { initialWorld with previousSeconds := 1, frameCount := 30 }).2 = true
    ∧ (showFPS 1.5 { initialWorld with previousSeconds := 1, frameCount := 30 }).1.frameCount
        = 1 :=
  ⟨by with_unfolding_all decide,
    showFPS_count_after_sample 1.5 { initialWorld with previousSeconds := 1, frameCount := 30 }
      (by with_unfolding_all decide)⟩

/-- C10: the claim says every sampling call sees a frame count of at least 1,
the first call included. On the code, the first call of the process with clock
reading 1 takes a sample while the frame count is still 0: `fps` is 0, the
divisor of `1000.0 / fps` is zero, and the title shows an infinite frame
time. -/
theorem showFPS_first_call_divides_by_zero :
    tookSample (showFPS 1 initialWorld).2 = true
    ∧ initialWorld.frameCount = 0
    ∧ round64 ((initialWorld.frameCount : ℚ) / round64 (1 - initialWorld.previousSeconds)) = 0
    ∧ Dbl.div 1000
        (round64 ((initialWorld.frameCount : ℚ) / round64 (1 - initialWorld.previousSeconds)))
        = Dbl.inf
    ∧ (showFPS 1 initialWorld).2
        = [Call.glfwGetTime, Call.glfwSetWindowTitle "FPS: 0.000 Frame Time: inf(ms)\n"] := by
  with_unfolding_all decide

/-! ## Runs of `showFPS` -/

theorem runFPS_snoc (w : World) (ts : List ℚ) (t : ℚ) :
    runFPS w (ts ++ [t])
      = ((showFPS t (runFPS w ts).1).1, (runFPS w ts).2 ++ [(showFPS t (runFPS w ts).1).2]) := by
  induction ts generalizing w with
  | nil => simp [runFPS]
  | cons a ts ih => simp [runFPS, ih]

theorem syntheticClock_succ (n : Nat) :
    syntheticClock (n + 1) = syntheticClock n ++ [0.25 * ((n : ℚ) + 1)] := by
  simp [syntheticClock, List.range_succ]

theorem syntheticClock_state (n : Nat) :
    (runFPS initialWorld (syntheticClock n)).1.previousSeconds = ((n / 2 : ℕ) : ℚ) / 2
    ∧ (runFPS initialWorld (syntheticClock n)).1.frameCount
        = (if n = 0 then 0 else if n = 1 ∨ n % 2 = 0 then 1 else 2) := by
  induction n with
  | zero => simp [syntheticClock, runFPS, initialWorld]
  | succ n ih =>
    obtain ⟨hp, hc⟩ := ih
    rw [syntheticClock_succ, runFPS_snoc]
    rcases Nat.even_or_odd' n with ⟨m, hm | hm⟩
    · have h2 : n / 2 = m := by omega
      have h3 : (n + 1) / 2 = m := by omega
      have hel : 0.25 * ((n : ℚ) + 1) - (runFPS initialWorld (syntheticClock n)).1.previousSeconds
          = 1 / 4 := by
        rw [hp, h2, hm]; push_cast; norm_num; linarith
      have hnot : ¬ (round64 (0.25 * ((n : ℚ) + 1)
          - (runFPS initialWorld (syntheticClock n)).1.previousSeconds) > 0.25) := by
        rw [hel, round64_quarter]; norm_num
      rw [showFPS_of_not_gt _ _ hnot]
      refine ⟨by simp [hp, h2, h3], ?_⟩
      simp only [hc]
      by_cases h0 : m = 0
      · subst h0; subst hm; decide
      · have e1 : ¬ n = 0 := by omega
        have e2 : n = 1 ∨ n % 2 = 0 := Or.inr (by omega)
        have e3 : ¬ (n + 1 = 1 ∨ (n + 1) % 2 = 0) := by omega
        simp only [e1, e2, e3, if_true, if_false, Nat.succ_ne_zero]
        decide
    · have h3 : (n + 1) / 2 = m + 1 := by omega
      have h2 : n / 2 = m := by omega
      have hel : 0.25 * ((n : ℚ) + 1) - (runFPS initialWorld (syntheticClock n)).1.previousSeconds
          = 1 / 2 := by
        rw [hp, h2, hm]; push_cast; norm_num; linarith
      have hgt : round64 (0.25 * ((n : ℚ) + 1)
          - (runFPS initialWorld (syntheticClock n)).1.previousSeconds) > 0.25 := by
        rw [hel, round64_half]; norm_num
      rw [showFPS_of_gt _ _ hgt]
      have e3 : (n + 1) % 2 = 0 := by omega
      refine ⟨?_, by simp [e3]⟩
      show (0.25 : ℚ) * ((n : ℚ) + 1) = (((n + 1) / 2 : ℕ) : ℚ) / 2
      rw [h3, hm]; push_cast; norm_num; ring

theorem round64_count_over_half (c : ℤ) (h : c = 1 ∨ c = 2) :
    round64 ((c : ℚ) / (1 / 2)) = (c : ℚ) / 0.5 := by
  rcases h with rfl | rfl <;> with_unfolding_all decide

/-- C2, as stated, fails: driven from the initial state by the synthetic
clock, the first and the third call emit no window-title update, and the
updates of the second and fourth call show `fps = 1 / 0.5` and
`fps = 2 / 0.5`. -/
theorem syntheticClock_first_call_silent :
    (runFPS initialWorld (syntheticClock 4)).2
        = [[Call.glfwGetTime],
           [Call.glfwGetTime, Call.glfwSetWindowTitle "FPS: 2.000 Frame Time: 500.000(ms)\n"],
           [Call.glfwGetTime],
           [Call.glfwGetTime, Call.glfwSetWindowTitle "FPS: 4.000 Frame Time: 250.000(ms)\n"]]
    ∧ (runFPS initialWorld (syntheticClock 4)).2.map tookSample = [false, true, false, true] := by
  with_unfolding_all decide

/-- C2, amended: starting from the initial state (time stamp 0, frame count
0) and driving `showFPS` with the synthetic clock that reads `0.25 * k` on
call `k`, every even-numbered call emits exactly one window-title update and
every odd-numbered call emits none, and the fps value in each update equals
(frame count at that call) / 0.5. -/
theorem syntheticClock_updates (n : Nat) :
    (runFPS initialWorld (syntheticClock n)).2
      = (List.range n).map fun i =>
          if (i + 1) % 2 = 0 then
            [Call.glfwGetTime,
             Call.glfwSetWindowTitle
              (titleText (((runFPS initialWorld (syntheticClock i)).1.frameCount : ℚ) / 0.5)
                (Dbl.div 1000
                  (((runFPS initialWorld (syntheticClock i)).1.frameCount : ℚ) / 0.5)))]
          else [Call.glfwGetTime] := by
  induction n with
  | zero => simp [syntheticClock, runFPS]
  | succ n ih =>
    rw [syntheticClock_succ, runFPS_snoc, List.range_succ, List.map_append, ih]
    obtain ⟨hp, hc⟩ := syntheticClock_state n
    simp only [List.map_cons, List.map_nil]
    rcases Nat.even_or_odd' n with ⟨m, hm | hm⟩
    · have h2 : n / 2 = m := by omega
      have hel : 0.25 * ((n : ℚ) + 1) - (runFPS initialWorld (syntheticClock n)).1.previousSeconds
          = 1 / 4 := by
        rw [hp, h2, hm]; push_cast; norm_num; linarith
      have hnot : ¬ (round64 (0.25 * ((n : ℚ) + 1)
          - (runFPS initialWorld (syntheticClock n)).1.previousSeconds) > 0.25) := by
        rw [hel, round64_quarter]; norm_num
      have e : ¬ (n + 1) % 2 = 0 := by omega
      rw [showFPS_of_not_gt _ _ hnot]
      simp [e]
    · have h2 : n / 2 = m := by omega
      have hel : 0.25 * ((n : ℚ) + 1) - (runFPS initialWorld (syntheticClock n)).1.previousSeconds
          = 1 / 2 := by
        rw [hp, h2, hm]; push_cast; norm_num; linarith
      have hgt : round64 (0.25 * ((n : ℚ) + 1)
          - (runFPS initialWorld (syntheticClock n)).1.previousSeconds) > 0.25 := by
        rw [hel, round64_half]; norm_num
      have e : (n + 1) % 2 = 0 := by omega
      have hcount : (runFPS initialWorld (syntheticClock n)).1.frameCount = 1
          ∨ (runFPS initialWorld (syntheticClock n)).1.frameCount = 2 := by
        rw [hc]
        by_cases h1 : n = 1
        · left; simp [h1]
        · right
          have e1 : ¬ n = 0 := by omega
          have e2 : ¬ (n = 1 ∨ n % 2 = 0) := by omega
          simp [e1, e2]
      rw [showFPS_of_gt _ _ hgt, hel, round64_half, round64_count_over_half _ hcount]
      simp [e]

theorem sampleTimes_chain (ts : List ℚ) :
    ∀ w : World, List.Chain (fun t1 t2 => t2 - t1 ≥ 0.25) w.previousSeconds (sampleTimes w ts) := by
  induction ts with
  | nil => intro w; simp [sampleTimes]
  | cons t ts ih =>
    intro w
    unfold sampleTimes
    by_cases h : round64 (t - w.previousSeconds) > 0.25
    · have hs : tookSample (showFPS t w).2 = true := by rw [tookSample_showFPS]; simpa using h
      simp only [hs, if_true]
      refine List.Chain.cons (le_of_lt (gt_of_round64_gt _ h)) ?_
      have := ih (showFPS t w).1
      rwa [showFPS_of_gt t w h] at this ⊢
    · have hs : tookSample (showFPS t w).2 = false := by rw [tookSample_showFPS]; simpa using h
      simp only [hs]
      have := ih (showFPS t w).1
      rw [showFPS_of_not_gt t w h] at this ⊢
      simpa using this

/-- C4: for every sequence of clock readings fed to successive `showFPS`
calls from the initial state, any two consecutive samples are at least 0.25
seconds of clock time apart (the first sample is that far from the initial
time stamp as well); and a call that does not sample leaves the last-sample
time stamp and the window title unchanged and makes no call but
`glfwGetTime`. -/
theorem samples_at_least_quarter_second_apart (ts : List ℚ) :
    List.Chain' (fun t1 t2 => t2 - t1 ≥ 0.25) (sampleTimes initialWorld ts)
    ∧ List.Chain (fun t1 t2 => t2 - t1 ≥ 0.25) 0 (sampleTimes initialWorld ts)
    ∧ ∀ (t : ℚ) (w : World),
        (showFPS t w).1.previousSeconds
            = (if tookSample (showFPS t w).2 = true then t else w.previousSeconds)
        ∧ (showFPS t w).1.title
            = (if tookSample (showFPS t w).2 = true then
                titleText (round64 (w.frameCount / round64 (t - w.previousSeconds)))
                  (Dbl.div 1000 (round64 (w.frameCount / round64 (t - w.previousSeconds))))
               else w.title)
        ∧ (showFPS t w).2
            = (if tookSample (showFPS t w).2 = true then
                [Call.glfwGetTime, Call.glfwSetWindowTitle (showFPS t w).1.title]
               else [Call.glfwGetTime]) := by
  have h := sampleTimes_chain ts initialWorld
  refine ⟨(List.chain'_cons'.1 h).2, h, ?_⟩
  intro t w
  rw [tookSample_showFPS]
  by_cases hgt : round64 (t - w.previousSeconds) > 0.25
  · rw [showFPS_of_gt t w hgt]; simp [hgt]
  · rw [showFPS_of_not_gt t w hgt]; simp [hgt]

/-! ## The shader build -/

/-- C7: for every combination of the vertex-compile, fragment-compile and
link status results, the shader build deletes the vertex shader and the
fragment shader exactly once each, after the link call and its status check
(and the diagnostic of a failed link); the text printed is the diagnostic of
exactly the failed steps, in order, and nothing when all three succeed. -/
theorem shaderBuild_deletes_and_reports (d : Driver) :
    (shaderBuild d).filter Call.isDeleteShader
        = [Call.glDeleteShader d.vertexShaderID, Call.glDeleteShader d.fragmentShaderID]
    ∧ (∃ pre : List Call,
        shaderBuild d
          = pre ++ [Call.glLinkProgram d.shaderProgramID, Call.glGetProgramiv d.shaderProgramID]
            ++ (if d.linkStatus then []
                else [Call.glGetProgramInfoLog d.shaderProgramID 512,
                      Call.cout ("Shader Program Linking Error!: " ++ d.programInfoLog ++ "\n"),
                      Call.systemPause])
            ++ [Call.glDeleteShader d.vertexShaderID, Call.glDeleteShader d.fragmentShaderID]
        ∧ pre.filter Call.isDeleteShader = [])
    ∧ stdoutOf (shaderBuild d)
        = (if d.vertexCompileStatus then []
            else ["Vertex Shader error!" ++ d.vertexInfoLog ++ "\n"])
          ++ (if d.fragmentCompileStatus then []
              else ["Fragment shader error!: " ++ d.fragmentInfoLog ++ "\n"])
          ++ (if d.linkStatus then []
              else ["Shader Program Linking Error!: " ++ d.programInfoLog ++ "\n"]) := by
  refine ⟨?_, ⟨[Call.glCreateShader ShaderType.GL_VERTEX_SHADER,
      Call.glShaderSource d.vertexShaderID vertexShadersource,
      Call.glCompileShader d.vertexShaderID,
      Call.glGetShaderiv d.vertexShaderID]
    ++ (if !d.vertexCompileStatus then
          [Call.glGetShaderInfoLog d.vertexShaderID 512,
            Call.cout ("Vertex Shader error!" ++ d.vertexInfoLog ++ "\n"),
            Call.systemPause]
        else [])
    ++ [Call.glCreateShader ShaderType.GL_FRAGMENT_SHADER,
      Call.glShaderSource d.fragmentShaderID fragmentShadersource,
      Call.glCompileShader d.fragmentShaderID,
      Call.glGetShaderiv d.fragmentShaderID]
    ++ (if !d.fragmentCompileStatus then
          [Call.glGetShaderInfoLog d.fragmentShaderID 512,
            Call.cout ("Fragment shader error!: " ++ d.fragmentInfoLog ++ "\n"),
            Call.systemPause]
        else [])
    ++ [Call.glCreateProgram,
      Call.glAttachShader d.shaderProgramID d.vertexShaderID,
      Call.glAttachShader d.shaderProgramID d.fragmentShaderID], ?_, ?_⟩, ?_⟩
  all_goals
    cases hv : d.vertexCompileStatus <;> cases hf : d.fragmentCompileStatus <;>
      cases hl : d.linkStatus <;>
      simp [shaderBuild, stdoutOf, Call.isDeleteShader, hv, hf, hl]

/-- C6: the claim says no draw command is issued unless both compilations and
the link succeed. On the code, with a vertex shader that fails to compile and
a program that fails to link, `main` prints the two diagnostics and still
enters the game loop, where the first iteration issues `glUseProgram` and
`glDrawArrays`. -/
theorem main_draws_after_failed_build :
    failingDriver.vertexCompileStatus = false
    ∧ failingDriver.linkStatus = false
    ∧ stdoutOf (main failingDriver [quietFrame 0.125]).1
        = ["Vertex Shader error!0:1: syntax error\n",
           "Shader Program Linking Error!: vertex shader not compiled\n"]
    ∧ (main failingDriver [quietFrame 0.125]).1.filter Call.isDraw
        = [Call.glUseProgram 3, Call.glDrawArrays DrawMode.GL_TRIANGLES 0 3] := by
  with_unfolding_all decide

/-! ## The game loop -/

theorem resize_calls (l : List (Int × Int)) :
    (l.map fun s => windowResizeCallBack s.1 s.2).flatten
      = l.map fun s => Call.glViewport 0 0 s.1 s.2 := by
  induction l with
  | nil => rfl
  | cons a l ih =>
    rw [List.map_cons, List.flatten_cons, ih]
    rfl

theorem pollEvents_calls (f : FrameInput) (w : World) :
    (pollEvents f w).2
      = Call.glfwPollEvents :: f.resizes.map fun s => Call.glViewport 0 0 s.1 s.2 := by
  unfold pollEvents
  simp only [resize_calls]

theorem showFPS_shouldClose (t : ℚ) (w : World) :
    (showFPS t w).1.shouldClose = w.shouldClose := by
  by_cases h : round64 (t - w.previousSeconds) > 0.25
  · rw [showFPS_of_gt t w h]
  · rw [showFPS_of_not_gt t w h]

theorem showFPS_calls (t : ℚ) (w : World) :
    (showFPS t w).2
      = Call.glfwGetTime ::
        (if round64 (t - w.previousSeconds) > 0.25 then
          [Call.glfwSetWindowTitle
            (titleText (round64 (w.frameCount / round64 (t - w.previousSeconds)))
              (Dbl.div 1000 (round64 (w.frameCount / round64 (t - w.previousSeconds)))))]
         else []) := by
  by_cases h : round64 (t - w.previousSeconds) > 0.25
  · rw [showFPS_of_gt t w h]; simp [h]
  · rw [showFPS_of_not_gt t w h]; simp [h]

theorem loopBody_calls (d : Driver) (f : FrameInput) (w : World) :
    (loopBody d f w).2
      = [Call.glfwGetKey]
        ++ (if f.escapePressed then [Call.glfwSetWindowShouldClose true] else [])
        ++ [Call.glClearColor 0 0 1 1,
            Call.glClear,
            Call.glUseProgram d.shaderProgramID,
            Call.glBindVertexArray d.vaoID1,
            Call.glDrawArrays DrawMode.GL_TRIANGLES 0 3,
            Call.glfwPollEvents]
        ++ (f.resizes.map fun s => Call.glViewport 0 0 s.1 s.2)
        ++ [Call.glfwSwapBuffers, Call.glfwGetTime]
        ++ (if round64 (f.currentSeconds - w.previousSeconds) > 0.25 then
              [Call.glfwSetWindowTitle
                (titleText
                  (round64 (w.frameCount / round64 (f.currentSeconds - w.previousSeconds)))
                  (Dbl.div 1000
                    (round64 (w.frameCount / round64 (f.currentSeconds - w.previousSeconds)))))]
            else []) := by
  unfold loopBody
  simp only [pollEvents_calls, showFPS_calls]
  cases he : f.escapePressed <;> simp [processInputs, pollEvents]

theorem gameLoop_closing (d : Driver) (w : World) (frames : List FrameInput)
    (h : w.shouldClose = true) :
    gameLoop d w frames = (w, [Call.glfwWindowShouldClose], true) := by
  cases frames <;> simp [gameLoop, h]

theorem gameLoop_running (d : Driver) (w : World) (f : FrameInput) (rest : List FrameInput)
    (h : w.shouldClose = false) :
    gameLoop d w (f :: rest)
      = ((gameLoop d (loopBody d f w).1 rest).1,
         Call.glfwWindowShouldClose :: (loopBody d f w).2
           ++ (gameLoop d (loopBody d f w).1 rest).2.1,
         (gameLoop d (loopBody d f w).1 rest).2.2) := by
  rw [gameLoop]
  simp [h]

/-- C8, as stated, fails: in an iteration during which Escape is held down,
the loop first evaluates `glfwWindowShouldClose`, only then polls the key and
sets the close flag, and goes on to clear, draw, poll events, swap buffers and
call `showFPS`; the loop is left at the next evaluation of its condition. -/
theorem escape_iteration_still_draws :
    gameLoop workingDriver initialWorld [escapeFrame 0.125, quietFrame 0.25]
      = ({ initialWorld with shouldClose := true, frameCount := 1 },
         [Call.glfwWindowShouldClose,
          Call.glfwGetKey,
          Call.glfwSetWindowShouldClose true,
          Call.glClearColor 0 0 1 1,
          Call.glClear,
          Call.glUseProgram 3,
          Call.glBindVertexArray 1,
          Call.glDrawArrays DrawMode.GL_TRIANGLES 0 3,
          Call.glfwPollEvents,
          Call.glfwSwapBuffers,
          Call.glfwGetTime,
          Call.glfwWindowShouldClose],
         true) := by
  with_unfolding_all decide

/-- C8, amended: every iteration of the game loop starts with the exit check
(`glfwWindowShouldClose`); when a close is requested the loop is left with no
further call, and otherwise the iteration performs, in this exact order and
with no step omitted, repeated or reordered: poll-input (`processInputs`),
clear with colour (0,0,1,1), activate program, activate vertex layout, draw 3
vertices as triangles starting at index 0, poll window events (running the
resize callback for each reported size), swap buffers, update the frame-rate
sample (`showFPS`), and then the next iteration follows. The exit condition is
checked before the input poll of the same iteration, so an iteration in which
Escape is detected still issues its clear and draw. -/
theorem gameLoop_iteration_order (d : Driver) (w : World) (f : FrameInput)
    (rest : List FrameInput) :
    (gameLoop d w (f :: rest)).2.1
      = if w.shouldClose then [Call.glfwWindowShouldClose]
        else
          [Call.glfwWindowShouldClose, Call.glfwGetKey]
          ++ (if f.escapePressed then [Call.glfwSetWindowShouldClose true] else [])
          ++ [Call.glClearColor 0 0 1 1,
              Call.glClear,
              Call.glUseProgram d.shaderProgramID,
              Call.glBindVertexArray d.vaoID1,
              Call.glDrawArrays DrawMode.GL_TRIANGLES 0 3,
              Call.glfwPollEvents]
          ++ (f.resizes.map fun s => Call.glViewport 0 0 s.1 s.2)
          ++ [Call.glfwSwapBuffers, Call.glfwGetTime]
          ++ (if round64 (f.currentSeconds - w.previousSeconds) > 0.25 then
                [Call.glfwSetWindowTitle
                  (titleText
                    (round64 (w.frameCount / round64 (f.currentSeconds - w.previousSeconds)))
                    (Dbl.div 1000
                      (round64
                        (w.frameCount / round64 (f.currentSeconds - w.previousSeconds)))))]
              else [])
          ++ (gameLoop d (loopBody d f w).1 rest).2.1 := by
  cases hw : w.shouldClose
  · rw [gameLoop_running d w f rest hw, loopBody_calls]
    simp
  · rw [gameLoop_closing d w _ hw]
    simp

/-- C9: `processInputs` sets the close flag to true whenever Escape is
pressed when it is called and otherwise leaves the flag, like everything
else, unchanged; it never sets the flag to false. Once a close request is
true it stays true through the rest of the loop body, and the next evaluation
of the loop condition ends the loop. -/
theorem processInputs_close_request (esc : Bool) (w : World) (d : Driver) (f : FrameInput)
    (frames : List FrameInput) :
    (processInputs esc w).1 = { w with shouldClose := w.shouldClose || esc }
    ∧ (processInputs esc w).2
        = Call.glfwGetKey :: (if esc then [Call.glfwSetWindowShouldClose true] else [])
    ∧ (loopBody d f w).1.shouldClose = (w.shouldClose || f.escapePressed || f.closeRequested)
    ∧ gameLoop d { w with shouldClose := true } frames
        = ({ w with shouldClose := true }, [Call.glfwWindowShouldClose], true) := by
  refine ⟨?_, ?_, ?_, ?_⟩
  · cases esc <;> simp [processInputs]
  · cases esc <;> simp [processInputs]
  · unfold loopBody
    simp only [showFPS_shouldClose]
    cases he : f.escapePressed <;> simp [processInputs, pollEvents, he]
  · exact gameLoop_closing d _ frames rfl

end OpenGl
